import Mathlib

/-!
# Verification of the x402-cli probe/pay orchestration and balance subsystem

Shallow embedding of the Go sources of `x402-cli` (files `main.go` and the
wallet/balance file).  Strings are modelled as `String`/`List Char`,
arbitrary-precision integers (`math/big`) as `Nat`, fallible operations as
`Option`/`Except`.  A Go runtime panic is modelled as `Option.none`.
External collaborators (the HTTP transport, the x402 payment-client library,
JSON-RPC transport, the signer library) are parameters of the model, exactly
as the spec declares them out of scope.
-/

namespace X402

/-! ## Decimal digit strings

`math/big`'s `Int.String()` renders a non-negative integer in base 10 with no
leading zeros (and `"0"` for zero).  We embed that rendering as a fuel-based
structural recursion (fuel `n + 1` always suffices since a number has at most
`n + 1` digits), mirroring the usual divide-by-ten loop.
-/

/-- Numeric value of a list of decimal digit characters (most significant
first), as read back by a decimal parser. -/
def digitsToNatL (l : List Char) : Nat :=
  l.foldl (fun a c => a * 10 + (c.toNat - 48)) 0

/-- Divide-by-ten rendering loop with an explicit fuel argument. -/
def natDigitsCore : Nat → Nat → List Char → List Char
  | 0, _, acc => acc
  | fuel + 1, n, acc =>
    if n < 10 then Nat.digitChar n :: acc
    else natDigitsCore fuel (n / 10) (Nat.digitChar (n % 10) :: acc)

/-- Decimal digits of `n`, most significant first; embedding of
`big.Int.String()` for non-negative values. -/
def natDigits (n : Nat) : List Char :=
  natDigitsCore (n + 1) n []

theorem natDigitsCore_acc (fuel : Nat) :
    ∀ n acc, n < fuel →
      natDigitsCore fuel n acc = natDigitsCore fuel n [] ++ acc := by
  induction fuel with
  | zero => intro n acc h; omega
  | succ fuel ih =>
    intro n acc _
    by_cases h10 : n < 10
    · simp [natDigitsCore, h10]
    · have hn : 0 < n := by omega
      have hlt : n / 10 < fuel + 1 := Nat.lt_of_le_of_lt (Nat.div_le_self n 10) ‹n < fuel + 1›
      have hlt' : n / 10 < fuel := by
        have := Nat.div_lt_self hn (by norm_num : 1 < 10)
        omega
      simp only [natDigitsCore, if_neg h10]
      rw [ih (n / 10) (Nat.digitChar (n % 10) :: acc) hlt',
        ih (n / 10) [Nat.digitChar (n % 10)] hlt']
      simp

theorem natDigits_succ (n : Nat) (h : ¬ n < 10) :
    natDigits n = natDigits (n / 10) ++ [Nat.digitChar (n % 10)] := by
  unfold natDigits
  have h1 : natDigitsCore (n + 1) n [] =
      natDigitsCore n (n / 10) [Nat.digitChar (n % 10)] := by
    simp [natDigitsCore, h]
  rw [h1]
  have hlt : n / 10 < n := Nat.div_lt_self (by omega) (by norm_num)
  rw [natDigitsCore_acc n (n / 10) [Nat.digitChar (n % 10)] hlt]
  congr 1
  -- both fuels exceed `n / 10`, so the results agree; prove by a small aux
  have : ∀ fuel₁ fuel₂ m, m < fuel₁ → m < fuel₂ →
      natDigitsCore fuel₁ m [] = natDigitsCore fuel₂ m [] := by
    intro fuel₁
    induction fuel₁ with
    | zero => intro fuel₂ m h1 _; omega
    | succ f ih =>
      intro fuel₂ m h1 h2
      cases fuel₂ with
      | zero => omega
      | succ f₂ =>
        by_cases hm : m < 10
        · simp [natDigitsCore, hm]
        · have hmpos : 0 < m := by omega
          have hd : m / 10 < m := Nat.div_lt_self hmpos (by norm_num)
          simp only [natDigitsCore, if_neg hm]
          rw [natDigitsCore_acc (f) (m / 10) _ (by omega),
            natDigitsCore_acc (f₂) (m / 10) _ (by omega)]
          rw [ih f₂ (m / 10) (by omega) (by omega)]
  exact this n (n / 10 + 1) (n / 10) hlt (by omega)

theorem natDigits_lt10 (n : Nat) (h : n < 10) :
    natDigits n = [Nat.digitChar n] := by
  simp [natDigits, natDigitsCore, h]

theorem digitChar_toNat (n : Nat) (h : n < 10) :
    (Nat.digitChar n).toNat - 48 = n := by
  interval_cases n <;> decide

theorem digitChar_isDigit (n : Nat) (h : n < 10) :
    (Nat.digitChar n).isDigit = true := by
  interval_cases n <;> decide

theorem foldl_digits_general (l : List Char) :
    ∀ a, l.foldl (fun a c => a * 10 + (c.toNat - 48)) a
      = a * 10 ^ l.length + digitsToNatL l := by
  induction l with
  | nil => intro a; simp [digitsToNatL]
  | cons c t ih =>
    intro a
    simp only [List.foldl_cons, digitsToNatL, List.length_cons]
    rw [ih, ih (0 * 10 + (c.toNat - 48))]
    ring

theorem digitsToNatL_append (l₁ l₂ : List Char) :
    digitsToNatL (l₁ ++ l₂) = digitsToNatL l₁ * 10 ^ l₂.length + digitsToNatL l₂ := by
  unfold digitsToNatL
  rw [List.foldl_append, foldl_digits_general]
  rfl

theorem digitsToNatL_natDigits (n : Nat) : digitsToNatL (natDigits n) = n := by
  induction n using Nat.strong_induction_on with
  | _ n ih =>
    by_cases h : n < 10
    · rw [natDigits_lt10 n h]
      simp [digitsToNatL, digitChar_toNat n h]
    · rw [natDigits_succ n h, digitsToNatL_append]
      have hd : n / 10 < n := Nat.div_lt_self (by omega) (by norm_num)
      rw [ih (n / 10) hd]
      have hm : n % 10 < 10 := Nat.mod_lt n (by norm_num)
      simp [digitsToNatL, digitChar_toNat (n % 10) hm]
      omega

theorem natDigits_ne_nil (n : Nat) : natDigits n ≠ [] := by
  by_cases h : n < 10
  · rw [natDigits_lt10 n h]; simp
  · rw [natDigits_succ n h]; simp

theorem natDigits_all_digits (n : Nat) :
    ∀ c ∈ natDigits n, c.isDigit = true := by
  induction n using Nat.strong_induction_on with
  | _ n ih =>
    by_cases h : n < 10
    · rw [natDigits_lt10 n h]
      intro c hc
      simp at hc
      subst hc
      exact digitChar_isDigit n h
    · rw [natDigits_succ n h]
      intro c hc
      rcases List.mem_append.mp hc with h1 | h1
      · exact ih (n / 10) (Nat.div_lt_self (by omega) (by norm_num)) c h1
      · simp at h1
        subst h1
        exact digitChar_isDigit _ (Nat.mod_lt n (by norm_num))

theorem natDigits_length_le (d : Nat) :
    ∀ n, 0 < n → n < 10 ^ d → (natDigits n).length ≤ d := by
  induction d with
  | zero => intro n h1 h2; omega
  | succ d ih =>
    intro n h1 h2
    by_cases h : n < 10
    · rw [natDigits_lt10 n h]
      simp only [List.length_singleton]
      omega
    · rw [natDigits_succ n h]
      rw [List.length_append]
      have hq : 0 < n / 10 := Nat.div_pos (by omega) (by norm_num)
      have hlt : n / 10 < 10 ^ d := by
        rw [Nat.div_lt_iff_lt_mul (by norm_num : 0 < 10)]
        calc n < 10 ^ (d + 1) := h2
        _ = 10 ^ d * 10 := by ring
      have := ih (n / 10) hq hlt
      simp
      omega

/-! ## Embedding of `atomicToHuman`

Go source (wallet file, lines 197–216):

```
func atomicToHuman(raw string, decimals int) string {
    bal.SetString(raw, 10)
    divisor := 10^decimals
    whole := bal / divisor ; frac := bal % divisor
    if frac == 0 { return whole.String() + ".000000" }
    fracStr := fmt.Sprintf("%0*s", decimals, frac.String())
    trimmed := strings.TrimRight(fracStr, "0")
    if len(trimmed) < 2 { trimmed = fracStr[:2] }
    return whole.String() + "." + trimmed
}
```

`raw` is a base-10 rendering of a non-negative integer, modelled as `Nat`.
`fmt.Sprintf("%0*s", w, s)` left-pads `s` with `'0'` to width `w`.
`fracStr[:2]` panics in Go when `len(fracStr) < 2`; the panic is modelled as
`none`.
-/

/-- `fmt.Sprintf("%0*s", w, s)`: left-pad with zeros to width `w`. -/
def padZeroLeftL (w : Nat) (l : List Char) : List Char :=
  List.replicate (w - l.length) '0' ++ l

/-- `strings.TrimRight(s, "0")`: drop trailing `'0'` characters. -/
def trimRightZerosL (l : List Char) : List Char :=
  (l.reverse.dropWhile (fun c => c == '0')).reverse

/-- Embedding of `atomicToHuman` for a non-negative atomic amount `n` and
`decimals = d`.  `none` models the Go slice-bounds panic of `fracStr[:2]`. -/
def atomicToHuman (n d : Nat) : Option String :=
  let divisor := 10 ^ d
  let whole := n / divisor
  let frac := n % divisor
  if frac = 0 then
    some (String.mk (natDigits whole ++ '.' :: List.replicate 6 '0'))
  else
    let fracStr := padZeroLeftL d (natDigits frac)
    let trimmed := trimRightZerosL fracStr
    if trimmed.length < 2 then
      if fracStr.length < 2 then none
      else some (String.mk (natDigits whole ++ '.' :: fracStr.take 2))
    else some (String.mk (natDigits whole ++ '.' :: trimmed))

/-- The fractional-part rule as the spec words it for a nonzero remainder:
zero-pad the remainder to `d` digits, trim trailing zeros, but never go below
two fractional digits. -/
def fracPartClaim (d frac : Nat) : List Char :=
  if (trimRightZerosL (padZeroLeftL d (natDigits frac))).length < 2 then
    trimRightZerosL (padZeroLeftL d (natDigits frac))
      ++ List.replicate (2 - (trimRightZerosL (padZeroLeftL d (natDigits frac))).length) '0'
  else trimRightZerosL (padZeroLeftL d (natDigits frac))

/-- The formatting rule exactly as the claim states it for every precision
`D`: divide by `10 ^ D`, format the remainder as a zero-padded (to `D`
digits) fractional part, trimmed of trailing zeros but never shorter than two
fractional digits; a zero remainder stays fully padded (to `D` digits),
matching the claim's own example `toHuman("0", 6) = "0.000000"`. -/
def toHumanClaim (n d : Nat) : String :=
  let frac := n % 10 ^ d
  if frac = 0 then
    String.mk (natDigits (n / 10 ^ d) ++ '.' :: List.replicate d '0')
  else
    String.mk (natDigits (n / 10 ^ d) ++ '.' :: fracPartClaim d frac)

/-- The amended formatting rule: as the claim, except that a zero remainder
is rendered as the fixed six zeros `".000000"` regardless of `D` (the
hard-coded literal in the source). -/
def toHumanAmended (n d : Nat) : String :=
  let frac := n % 10 ^ d
  if frac = 0 then
    String.mk (natDigits (n / 10 ^ d) ++ '.' :: List.replicate 6 '0')
  else
    String.mk (natDigits (n / 10 ^ d) ++ '.' :: fracPartClaim d frac)

/-! ### Structure of trimming and padding -/

theorem trimRightZerosL_spec (l : List Char) :
    ∃ m, l = trimRightZerosL l ++ List.replicate m '0' := by
  refine ⟨(l.reverse.takeWhile (fun c => c == '0')).length, ?_⟩
  have hsplit : l.reverse.takeWhile (fun c => c == '0')
      ++ l.reverse.dropWhile (fun c => c == '0') = l.reverse :=
    List.takeWhile_append_dropWhile (fun c => c == '0') l.reverse
  have hrep : l.reverse.takeWhile (fun c => c == '0')
      = List.replicate (l.reverse.takeWhile (fun c => c == '0')).length '0' := by
    apply List.eq_replicate_of_mem
    intro b hb
    have := List.mem_takeWhile_imp hb
    simpa using this
  calc l = l.reverse.reverse := by simp
  _ = (l.reverse.takeWhile (fun c => c == '0')
      ++ l.reverse.dropWhile (fun c => c == '0')).reverse := by rw [hsplit]
  _ = trimRightZerosL l ++ (l.reverse.takeWhile (fun c => c == '0')).reverse := by
      rw [List.reverse_append]; rfl
  _ = trimRightZerosL l ++ List.replicate _ '0' := by
      rw [hrep, List.reverse_replicate, List.length_replicate]

theorem digitsToNatL_replicate_zero (m : Nat) :
    digitsToNatL (List.replicate m '0') = 0 := by
  induction m with
  | zero => rfl
  | succ m ih =>
    rw [List.replicate_succ]
    unfold digitsToNatL at ih ⊢
    simpa using ih

theorem digitsToNatL_append_zeros (l : List Char) (m : Nat) :
    digitsToNatL (l ++ List.replicate m '0') = digitsToNatL l * 10 ^ m := by
  rw [digitsToNatL_append, digitsToNatL_replicate_zero, List.length_replicate]
  omega

theorem digitsToNatL_pad (w : Nat) (l : List Char) :
    digitsToNatL (padZeroLeftL w l) = digitsToNatL l := by
  unfold padZeroLeftL
  rw [digitsToNatL_append, digitsToNatL_replicate_zero]
  simp

theorem padZeroLeftL_length (w : Nat) (l : List Char) (h : l.length ≤ w) :
    (padZeroLeftL w l).length = w := by
  unfold padZeroLeftL
  rw [List.length_append, List.length_replicate]
  omega

theorem fracStr_length (d frac : Nat) (h0 : 0 < frac) (h : frac < 10 ^ d) :
    (padZeroLeftL d (natDigits frac)).length = d :=
  padZeroLeftL_length d _ (natDigits_length_le d frac h0 h)

theorem fracStr_value (d frac : Nat) :
    digitsToNatL (padZeroLeftL d (natDigits frac)) = frac := by
  rw [digitsToNatL_pad, digitsToNatL_natDigits]

theorem trim_ne_nil (d frac : Nat) (h0 : 0 < frac) :
    trimRightZerosL (padZeroLeftL d (natDigits frac)) ≠ [] := by
  intro habs
  obtain ⟨m, hm⟩ := trimRightZerosL_spec (padZeroLeftL d (natDigits frac))
  rw [habs, List.nil_append] at hm
  have := fracStr_value d frac
  rw [hm, digitsToNatL_replicate_zero] at this
  omega

theorem take_two_cons_zeros (c : Char) (m : Nat) (h : 1 ≤ m) :
    (c :: List.replicate m '0').take 2 = [c, '0'] := by
  cases m with
  | zero => omega
  | succ m => simp [List.replicate_succ]

/-- For `d ≠ 1` the Go formatter never panics and agrees with the amended
formatting rule (six zeros for a zero remainder; pad-trim-min-two for a
nonzero one). -/
theorem toHuman_eq (n d : Nat) (hd : d ≠ 1) :
    atomicToHuman n d = some (toHumanAmended n d) := by
  unfold atomicToHuman toHumanAmended
  by_cases hfrac : n % 10 ^ d = 0
  · simp [hfrac]
  · have hd0 : d ≠ 0 := by
      intro h0
      subst h0
      exact hfrac (Nat.mod_one n)
    have hd2 : 2 ≤ d := by omega
    have hfracpos : 0 < n % 10 ^ d := Nat.pos_of_ne_zero hfrac
    have hfraclt : n % 10 ^ d < 10 ^ d := Nat.mod_lt n (Nat.pos_pow_of_pos d (by norm_num))
    have hlen : (padZeroLeftL d (natDigits (n % 10 ^ d))).length = d :=
      fracStr_length d _ hfracpos hfraclt
    simp only [if_neg hfrac]
    unfold fracPartClaim
    by_cases htrim :
        (trimRightZerosL (padZeroLeftL d (natDigits (n % 10 ^ d)))).length < 2
    · have hne : trimRightZerosL (padZeroLeftL d (natDigits (n % 10 ^ d))) ≠ [] :=
        trim_ne_nil d _ hfracpos
      have ht1 : (trimRightZerosL (padZeroLeftL d (natDigits (n % 10 ^ d)))).length = 1 := by
        have := List.length_pos.mpr hne
        omega
      obtain ⟨m, hm⟩ := trimRightZerosL_spec (padZeroLeftL d (natDigits (n % 10 ^ d)))
      have hmlen : 1 + m = d := by
        have := congrArg List.length hm
        rw [List.length_append, List.length_replicate, ht1] at this
        omega
      obtain ⟨c, hc⟩ := List.length_eq_one.mp ht1
      simp only [if_pos htrim, if_neg (by omega : ¬ (padZeroLeftL d (natDigits (n % 10 ^ d))).length < 2)]
      have htake : (padZeroLeftL d (natDigits (n % 10 ^ d))).take 2 = [c, '0'] := by
        rw [hm, hc]
        exact take_two_cons_zeros c m (by omega)
      rw [htake, hc]
      simp
    · simp only [if_neg htrim, if_neg (by omega : ¬ (padZeroLeftL d (natDigits (n % 10 ^ d))).length < 2)]

/-- C2 — counterexample.  The claim's formatting rule, applied at precision
`D = 2` to the atomic amount `0`, yields `"0.00"`, but the code hard-codes a
six-zero fractional part `".000000"` for every zero remainder regardless of
`D`, so `toHuman("0", 2) = "0.000000"`. -/
theorem C2_counterexample :
    atomicToHuman 0 2 = some "0.000000" ∧ toHumanClaim 0 2 = "0.00" ∧
      atomicToHuman 0 2 ≠ some (toHumanClaim 0 2) := by
  refine ⟨by decide, by decide, by decide⟩

/-- C2 (amended): for every atomic amount `A` and every precision `D ≠ 1`,
`toHuman(A, D)` divides `A` by `10 ^ D`; a zero remainder is rendered with
the fixed fractional part `"000000"` (six zeros regardless of `D`), and a
nonzero remainder is zero-padded to `D` digits and trimmed of trailing zeros
but never below two fractional digits; in particular
`toHuman("0", 6) = "0.000000"` and `toHuman("1000", 6) = "0.001"`.
(At `D = 1` the formatter panics on remainders not divisible by 10.) -/
theorem C2_toHuman_format :
    (∀ n d, d ≠ 1 → atomicToHuman n d = some (toHumanAmended n d)) ∧
      atomicToHuman 0 6 = some "0.000000" ∧
      atomicToHuman 1000 6 = some "0.001" :=
  ⟨toHuman_eq, by decide, by decide⟩

/-- C2 — witness: the amended rule evaluated at the claim's own example
`toHuman("1000", 6)`. -/
theorem C2_toHuman_format_witness :
    (6 : Nat) ≠ 1 ∧ atomicToHuman 1000 6 = some (toHumanAmended 1000 6) :=
  ⟨by decide, C2_toHuman_format.1 1000 6 (by decide)⟩

/-! ## Round trip: parsing the human string back

`parseDecimalL` reads a string of the shape `<digits>.<digits>` as the
rational `w + f / 10 ^ fl` (`fl` = number of fractional digits).  The
round-trip equation `(w * 10 ^ fl + f) * 10 ^ d = A * 10 ^ fl` states
exactly that this rational multiplied by `10 ^ d` is the integer `A`.
-/

/-- Characters allowed before the decimal point. -/
def dotP (c : Char) : Bool := c != '.'

/-- Parse `w.f` as `(value of w, value of f, number of fractional digits)`. -/
def parseDecimalL (l : List Char) : Option (Nat × Nat × Nat) :=
  match l.dropWhile dotP with
  | [] => none
  | c :: f =>
    let w := l.takeWhile dotP
    if c = '.' ∧ w ≠ [] ∧ f ≠ [] ∧ w.all Char.isDigit ∧ f.all Char.isDigit then
      some (digitsToNatL w, digitsToNatL f, f.length)
    else none

theorem digit_dotP (c : Char) (h : c.isDigit = true) : dotP c = true := by
  have hne : c ≠ '.' := by
    intro hc
    subst hc
    exact absurd h (by decide)
  simpa [dotP] using hne

theorem takeWhile_dotP (a b : List Char) (h : ∀ c ∈ a, dotP c = true) :
    (a ++ '.' :: b).takeWhile dotP = a := by
  induction a with
  | nil =>
    have hdot : dotP '.' = false := by decide
    simp [List.takeWhile_cons, hdot]
  | cons x t ih =>
    simp only [List.cons_append, List.takeWhile_cons, h x (by simp)]
    rw [ih (fun c hc => h c (by simp [hc]))]
    simp

theorem dropWhile_dotP (a b : List Char) (h : ∀ c ∈ a, dotP c = true) :
    (a ++ '.' :: b).dropWhile dotP = '.' :: b := by
  induction a with
  | nil =>
    have hdot : dotP '.' = false := by decide
    simp [List.dropWhile_cons, hdot]
  | cons x t ih =>
    simp only [List.cons_append, List.dropWhile_cons, h x (by simp)]
    exact ih (fun c hc => h c (by simp [hc]))

theorem parseDecimalL_concat (a b : List Char)
    (ha : ∀ c ∈ a, c.isDigit = true) (hb : ∀ c ∈ b, c.isDigit = true)
    (ha0 : a ≠ []) (hb0 : b ≠ []) :
    parseDecimalL (a ++ '.' :: b) = some (digitsToNatL a, digitsToNatL b, b.length) := by
  have hta := takeWhile_dotP a b (fun c hc => digit_dotP c (ha c hc))
  have hda := dropWhile_dotP a b (fun c hc => digit_dotP c (ha c hc))
  have haall : a.all Char.isDigit = true := List.all_eq_true.mpr ha
  have hball : b.all Char.isDigit = true := List.all_eq_true.mpr hb
  simp only [parseDecimalL, hta, hda]
  rw [if_pos ⟨trivial, ha0, hb0, haall, hball⟩]

theorem scale_eq_frac_zero (q d : Nat) :
    (q * 10 ^ 6 + 0) * 10 ^ d = (10 ^ d * q + 0) * 10 ^ 6 := by ring

theorem scale_eq_long (q vt m tlen d : Nat) (hm : tlen + m = d) :
    (q * 10 ^ tlen + vt) * 10 ^ d = (10 ^ d * q + vt * 10 ^ m) * 10 ^ tlen := by
  subst hm
  ring

theorem scale_eq_short (q vt m d : Nat) (hm : 1 + m = d) :
    (q * 10 ^ 2 + vt * 10) * 10 ^ d = (10 ^ d * q + vt * 10 ^ m) * 10 ^ 2 := by
  subst hm
  ring

theorem pad_all_digits (d frac : Nat) :
    ∀ c ∈ padZeroLeftL d (natDigits frac), c.isDigit = true := by
  intro c hc
  rcases List.mem_append.mp hc with h1 | h1
  · have := List.eq_of_mem_replicate h1
    subst this
    decide
  · exact natDigits_all_digits frac c h1

/-- The amended human rendering parses back to a rational that rescaled by
`10 ^ d` gives back the original amount. -/
theorem toHumanAmended_roundTrip (n d : Nat) :
    ∃ w f fl, parseDecimalL (toHumanAmended n d).toList = some (w, f, fl) ∧
      (w * 10 ^ fl + f) * 10 ^ d = n * 10 ^ fl := by
  have hscale : ∀ fl : Nat, n * 10 ^ fl = (10 ^ d * (n / 10 ^ d) + n % 10 ^ d) * 10 ^ fl := by
    intro fl
    rw [Nat.div_add_mod]
  by_cases hfrac : n % 10 ^ d = 0
  · refine ⟨n / 10 ^ d, 0, 6, ?_, ?_⟩
    · have : (toHumanAmended n d).toList
          = natDigits (n / 10 ^ d) ++ '.' :: List.replicate 6 '0' := by
        unfold toHumanAmended
        simp only [if_pos hfrac]
        rfl
      rw [this, parseDecimalL_concat _ _ (natDigits_all_digits _)
        (fun c hc => by rw [List.eq_of_mem_replicate hc]; decide)
        (natDigits_ne_nil _) (by simp)]
      rw [digitsToNatL_natDigits, digitsToNatL_replicate_zero, List.length_replicate]
    · rw [hscale 6, hfrac]
      exact scale_eq_frac_zero _ d
  · have hfracpos : 0 < n % 10 ^ d := Nat.pos_of_ne_zero hfrac
    have hfraclt : n % 10 ^ d < 10 ^ d := Nat.mod_lt n (Nat.pos_pow_of_pos d (by norm_num))
    have hd0 : d ≠ 0 := by
      intro h0
      subst h0
      exact hfrac (Nat.mod_one n)
    have hlen : (padZeroLeftL d (natDigits (n % 10 ^ d))).length = d :=
      fracStr_length d _ hfracpos hfraclt
    obtain ⟨m, hm⟩ := trimRightZerosL_spec (padZeroLeftL d (natDigits (n % 10 ^ d)))
    have htne : trimRightZerosL (padZeroLeftL d (natDigits (n % 10 ^ d))) ≠ [] :=
      trim_ne_nil d _ hfracpos
    have htlen : (trimRightZerosL (padZeroLeftL d (natDigits (n % 10 ^ d)))).length + m = d := by
      have := congrArg List.length hm
      rw [List.length_append, List.length_replicate, hlen] at this
      omega
    have hval : n % 10 ^ d
        = digitsToNatL (trimRightZerosL (padZeroLeftL d (natDigits (n % 10 ^ d)))) * 10 ^ m := by
      have := fracStr_value d (n % 10 ^ d)
      rw [hm, digitsToNatL_append_zeros] at this
      omega
    have htdig : ∀ c ∈ trimRightZerosL (padZeroLeftL d (natDigits (n % 10 ^ d))),
        c.isDigit = true := by
      intro c hc
      exact pad_all_digits d (n % 10 ^ d) c (hm ▸ List.mem_append_left _ hc)
    have hfp : (toHumanAmended n d).toList
        = natDigits (n / 10 ^ d) ++ '.' :: fracPartClaim d (n % 10 ^ d) := by
      unfold toHumanAmended
      simp only [if_neg hfrac]
      rfl
    unfold fracPartClaim at hfp
    obtain ⟨T, hT⟩ : ∃ T, trimRightZerosL (padZeroLeftL d (natDigits (n % 10 ^ d))) = T :=
      ⟨_, rfl⟩
    rw [hT] at hm htne htlen hval htdig hfp
    by_cases htrim : T.length < 2
    · have ht1 : T.length = 1 := by
        have := List.length_pos.mpr htne
        omega
      rw [if_pos htrim, ht1] at hfp
      have hrep : (2 : Nat) - 1 = 1 := by omega
      rw [hrep] at hfp
      refine ⟨n / 10 ^ d, digitsToNatL T * 10, 2, ?_, ?_⟩
      · rw [hfp]
        rw [parseDecimalL_concat _ _ (natDigits_all_digits _)
          (fun c hc => by
            rcases List.mem_append.mp hc with h1 | h1
            · exact htdig c h1
            · rw [List.eq_of_mem_replicate h1]; decide)
          (natDigits_ne_nil _) (by simp [htne])]
        rw [digitsToNatL_natDigits, digitsToNatL_append_zeros]
        simp [ht1]
      · rw [hscale 2, hval]
        exact scale_eq_short _ _ m d (by omega)
    · rw [if_neg htrim] at hfp
      refine ⟨n / 10 ^ d, digitsToNatL T, T.length, ?_, ?_⟩
      · rw [hfp]
        rw [parseDecimalL_concat _ _ (natDigits_all_digits _) htdig
          (natDigits_ne_nil _) htne]
        rw [digitsToNatL_natDigits]
      · rw [hscale _, hval]
        exact scale_eq_long _ _ m _ d htlen

/-- C3 — counterexample.  At precision `D = 1` and atomic amount `A = 5` the
formatter panics (Go slice `fracStr[:2]` on the one-character string `"5"`),
so no decimal string is produced at all and the round trip fails: the claim
quantifies over every decimal precision `D`. -/
theorem C3_counterexample : atomicToHuman 5 1 = none := by decide

/-- C3 (amended): for every non-negative atomic amount `A` and every decimal
precision `D ≠ 1`, parsing the decimal string `toHuman(A, D)` back as a
rational `w + f / 10 ^ fl` and multiplying by `10 ^ D` yields exactly the
original integer `A` — the trimming and minimum-two-digit rules never lose
information.  (At `D = 1` the formatter panics on amounts not divisible by
10, so no string is produced there.) -/
theorem C3_roundTrip (n d : Nat) (hd : d ≠ 1) :
    ∃ s w f fl, atomicToHuman n d = some s ∧
      parseDecimalL s.toList = some (w, f, fl) ∧
      (w * 10 ^ fl + f) * 10 ^ d = n * 10 ^ fl := by
  obtain ⟨w, f, fl, hp, he⟩ := toHumanAmended_roundTrip n d
  exact ⟨toHumanAmended n d, w, f, fl, toHuman_eq n d hd, hp, he⟩

/-- C3 — witness: the round trip at the concrete input `A = 1000`, `D = 6`
(whose rendering is the trimmed `"0.001"`). -/
theorem C3_roundTrip_witness :
    ∃ s w f fl, atomicToHuman 1000 6 = some s ∧
      parseDecimalL s.toList = some (w, f, fl) ∧
      (w * 10 ^ fl + f) * 10 ^ 6 = 1000 * 10 ^ fl :=
  C3_roundTrip 1000 6 (by decide)

/-! ## Base64 (Go `encoding/base64` `StdEncoding.DecodeString`)

Standard alphabet, strict `=` padding at the end only, quanta of four
characters; `\r` and `\n` are ignored wherever they occur (as the Go decoder
does).  Output bytes are modelled as `Nat` values below 256.
-/

/-- Value of a standard-alphabet base64 character. -/
def b64Val (c : Char) : Option Nat :=
  if 'A' ≤ c ∧ c ≤ 'Z' then some (c.toNat - 65)
  else if 'a' ≤ c ∧ c ≤ 'z' then some (c.toNat - 97 + 26)
  else if '0' ≤ c ∧ c ≤ '9' then some (c.toNat - 48 + 52)
  else if c = '+' then some 62
  else if c = '/' then some 63
  else none

/-- Decode a newline-free character stream, one four-character quantum at a
time.  Padding is accepted only in the last quantum. -/
def b64DecodeQuanta : List Char → Option (List Nat)
  | [] => some []
  | c1 :: c2 :: c3 :: c4 :: rest =>
    match b64Val c1, b64Val c2 with
    | some v1, some v2 =>
      if c3 = '=' then
        if c4 = '=' ∧ rest = [] then some [v1 * 4 + v2 / 16]
        else none
      else
        match b64Val c3 with
        | none => none
        | some v3 =>
          if c4 = '=' then
            if rest = [] then some [v1 * 4 + v2 / 16, (v2 % 16) * 16 + v3 / 4]
            else none
          else
            match b64Val c4 with
            | none => none
            | some v4 =>
              (b64DecodeQuanta rest).map
                (fun tl => (v1 * 4 + v2 / 16) :: ((v2 % 16) * 16 + v3 / 4)
                  :: ((v3 % 4) * 64 + v4) :: tl)
    | _, _ => none
  | _ => none

/-- Embedding of `base64.StdEncoding.DecodeString`: drop CR/LF, then decode
strictly; `none` models a `CorruptInputError`. -/
def base64Decode (s : String) : Option (List Nat) :=
  b64DecodeQuanta (s.toList.filter (fun c => c != '\n' && c != '\r'))

/-- A decoded nonempty quantum stream is nonempty. -/
theorem b64DecodeQuanta_ne_nil (l : List Char) (hl : l ≠ []) (bs : List Nat)
    (h : b64DecodeQuanta l = some bs) : bs ≠ [] := by
  match l, hl with
  | c1 :: c2 :: c3 :: c4 :: rest, _ =>
    unfold b64DecodeQuanta at h
    rcases hv1 : b64Val c1 with _ | v1 <;> rw [hv1] at h <;>
      rcases hv2 : b64Val c2 with _ | v2 <;> rw [hv2] at h
    · simp at h
    · simp at h
    · simp at h
    · dsimp only at h
      by_cases h3 : c3 = '='
      · rw [if_pos h3] at h
        by_cases h4 : c4 = '=' ∧ rest = []
        · rw [if_pos h4] at h
          simp at h
          subst h
          simp
        · rw [if_neg h4] at h
          simp at h
      · rw [if_neg h3] at h
        rcases hv3 : b64Val c3 with _ | v3 <;> rw [hv3] at h
        · simp at h
        · dsimp only at h
          by_cases h4 : c4 = '='
          · rw [if_pos h4] at h
            by_cases hr : rest = []
            · rw [if_pos hr] at h
              simp at h
              subst h
              simp
            · rw [if_neg hr] at h
              simp at h
          · rw [if_neg h4] at h
            rcases hv4 : b64Val c4 with _ | v4 <;> rw [hv4] at h
            · simp at h
            · rcases hrest : b64DecodeQuanta rest with _ | tl <;> rw [hrest] at h
              · simp at h
              · simp at h
                subst h
                simp
  | [c1], _ => simp [b64DecodeQuanta] at h
  | [c1, c2], _ => simp [b64DecodeQuanta] at h
  | [c1, c2, c3], _ => simp [b64DecodeQuanta] at h

/-- `s` contains no carriage return and no line feed (always true of an HTTP
header value delivered by Go's client). -/
def noCRLF (s : String) : Bool :=
  s.toList.all (fun c => c != '\n' && c != '\r')

theorem base64Decode_noCRLF (s : String) (h : noCRLF s = true) :
    base64Decode s = b64DecodeQuanta s.toList := by
  unfold base64Decode
  rw [List.filter_eq_self.mpr]
  intro a ha
  exact List.all_eq_true.mp h a ha

/-- On newline-free input, decoding a nonempty string yields nonempty bytes. -/
theorem base64Decode_ne_nil (s : String) (hcr : noCRLF s = true) (hs : s ≠ "")
    (bs : List Nat) (h : base64Decode s = some bs) : bs ≠ [] := by
  rw [base64Decode_noCRLF s hcr] at h
  refine b64DecodeQuanta_ne_nil s.toList ?_ bs h
  intro habs
  apply hs
  cases s with
  | mk data =>
    simp only [String.toList] at habs
    simp [habs]

/-! ## Embedding of the probe/pay orchestration (`main.go`, `main`)

The model starts after flag parsing and request construction (thin glue per
the spec).  Inputs:

* `Flags` — the parsed command-line flags relevant to control flow;
* `key` — the `EVM_PRIVATE_KEY` environment variable (`""` = unset);
* `probeNet` — outcome of the Step-1 unauthenticated request: transport
  error or an `HttpResponse`;
* `stdinLine` — the line read by the dry-run confirmation prompt
  (`none` = `scanner.Scan()` returned false);
* `signerOf` — the external `evmsigners.NewClientSignerFromPrivateKey`
  followed by `.Address()`, opaque pass/fail per the spec;
* `payNet` — outcome of the Step-2 payment-wrapped request.

The outcome records the final `result.Status`, the process exit code, the
`result.Error` text, the probe/payment documents, and whether signer
construction / the payment request were ever invoked.  Human-readable
`stdout` progress lines are presentation only and are not modelled.
-/

structure Flags where
  insecure : Bool
  skipVerify : Bool
  verbose : Bool
  dryRun : Bool
  jsonOutput : Bool
  autoYes : Bool
  quiet : Bool
  outputFile : String
deriving DecidableEq

structure HttpResponse where
  statusCode : Nat
  headers : String → String
  body : String

inductive NetResult where
  | err (msg : String)
  | ok (resp : HttpResponse)

structure ProbeRes where
  statusCode : Nat
  paymentRequired : Bool
  paymentRequirements : Option (List Nat)
  body : String
deriving DecidableEq

structure PayRes where
  statusCode : Nat
  accepted : Bool
  signer : String
  paymentResponse : Option (List Nat)
  body : String
deriving DecidableEq

structure RunOutcome where
  status : String
  exitCode : Nat
  errorMsg : Option String
  probe : Option ProbeRes
  payment : Option PayRes
  signerInvoked : Bool
  paymentAttempted : Bool
deriving DecidableEq

/-- The "decode optional base64 header, tolerate failure" pattern: a missing
header or an undecodable value leaves the document absent. -/
def bestEffortB64 (v : String) : Option (List Nat) :=
  if v = "" then none else base64Decode v

/-- `main.go` lines 235–255: build the probe result from the Step-1
response. -/
def mkProbeRes (resp : HttpResponse) : ProbeRes :=
  { statusCode := resp.statusCode
    paymentRequired := resp.statusCode == 402
    paymentRequirements := bestEffortB64 (resp.headers "PAYMENT-REQUIRED")
    body := resp.body }

/-- `main.go` lines 358–374: build the payment result from the Step-2
response. -/
def mkPayRes (resp : HttpResponse) (addr : String) : PayRes :=
  { statusCode := resp.statusCode
    accepted := resp.statusCode == 200
    signer := addr
    paymentResponse := bestEffortB64 (resp.headers "PAYMENT-RESPONSE")
    body := resp.body }

/-- `main.go` lines 301–409: Step 2 (credential check, signer construction,
payment request, settlement classification). -/
def runStep2 (key : String) (signerOf : String → Except String String)
    (payNet : NetResult) (probe : ProbeRes) : RunOutcome :=
  if key = "" then
    { status := "error", exitCode := 1,
      errorMsg := some "EVM_PRIVATE_KEY is required for Step 2 (payment)",
      probe := some probe, payment := none,
      signerInvoked := false, paymentAttempted := false }
  else
    match signerOf key with
    | .error e =>
      { status := "error", exitCode := 1,
        errorMsg := some ("failed to create signer: " ++ e),
        probe := some probe, payment := none,
        signerInvoked := true, paymentAttempted := false }
    | .ok addr =>
      match payNet with
      | .err m =>
        { status := "error", exitCode := 1,
          errorMsg := some ("payment request failed: " ++ m),
          probe := some probe, payment := none,
          signerInvoked := true, paymentAttempted := true }
      | .ok resp2 =>
        if resp2.statusCode = 200 then
          { status := "accepted", exitCode := 0, errorMsg := none,
            probe := some probe, payment := some (mkPayRes resp2 addr),
            signerInvoked := true, paymentAttempted := true }
        else if resp2.statusCode = 402 then
          { status := "rejected", exitCode := 2, errorMsg := none,
            probe := some probe, payment := some (mkPayRes resp2 addr),
            signerInvoked := true, paymentAttempted := true }
        else
          { status := "error", exitCode := 1,
            errorMsg := some ("unexpected status " ++ toString resp2.statusCode),
            probe := some probe, payment := some (mkPayRes resp2 addr),
            signerInvoked := true, paymentAttempted := true }

/-- The `Aborted.` path of the dry-run gate: `os.Exit(0)` with the status
field never assigned. -/
def abortedOutcome (probe : ProbeRes) : RunOutcome :=
  { status := "", exitCode := 0, errorMsg := none,
    probe := some probe, payment := none,
    signerInvoked := false, paymentAttempted := false }

/-- `main.go` lines 257–409: branch on the probe result (free route / no 402
/ skip-verify / dry-run confirmation gate / Step 2). -/
def runAfterProbe (fl : Flags) (key : String) (stdinLine : Option String)
    (signerOf : String → Except String String) (payNet : NetResult)
    (probe : ProbeRes) : RunOutcome :=
  if probe.statusCode ≠ 402 then
    if probe.statusCode = 200 then
      { status := "free", exitCode := 3, errorMsg := none,
        probe := some probe, payment := none,
        signerInvoked := false, paymentAttempted := false }
    else
      { status := "no_402", exitCode := 0, errorMsg := none,
        probe := some probe, payment := none,
        signerInvoked := false, paymentAttempted := false }
  else if fl.skipVerify then
    { status := "payment_required", exitCode := 0, errorMsg := none,
      probe := some probe, payment := none,
      signerInvoked := false, paymentAttempted := false }
  else if fl.dryRun && !fl.autoYes then
    if fl.jsonOutput then
      { status := "payment_required", exitCode := 0, errorMsg := none,
        probe := some probe, payment := none,
        signerInvoked := false, paymentAttempted := false }
    else
      match stdinLine with
      | none => abortedOutcome probe
      | some line =>
        if line.trim.toLower.startsWith "y" then runStep2 key signerOf payNet probe
        else abortedOutcome probe
  else runStep2 key signerOf payNet probe

/-- The whole run: transport failure of the probe is fatal, otherwise the
probe result is built once and drives the rest. -/
def runMain (fl : Flags) (key : String) (probeNet : NetResult)
    (stdinLine : Option String) (signerOf : String → Except String String)
    (payNet : NetResult) : RunOutcome :=
  match probeNet with
  | .err m =>
    { status := "error", exitCode := 1, errorMsg := some m,
      probe := none, payment := none,
      signerInvoked := false, paymentAttempted := false }
  | .ok resp => runAfterProbe fl key stdinLine signerOf payNet (mkProbeRes resp)

/-- The emitted run result always carries the probe document once the
Step-1 response arrived (the code sets `result.Probe` before branching). -/
theorem runAfterProbe_probe (fl : Flags) (key : String) (stdinLine : Option String)
    (signerOf : String → Except String String) (payNet : NetResult) (probe : ProbeRes) :
    (runAfterProbe fl key stdinLine signerOf payNet probe).probe = some probe := by
  unfold runAfterProbe runStep2 abortedOutcome
  repeat' split
  all_goals rfl

/-- C1: for every probe response with HTTP status 200 (the route is free),
the run's final status is `"free"` and the process exit code is 3,
regardless of whether `EVM_PRIVATE_KEY` is configured (the credential check
only happens in Step 2, which is never reached). -/
theorem C1_free_route (fl : Flags) (key : String) (resp : HttpResponse)
    (stdinLine : Option String) (signerOf : String → Except String String)
    (payNet : NetResult) (h : resp.statusCode = 200) :
    (runMain fl key (.ok resp) stdinLine signerOf payNet).status = "free" ∧
      (runMain fl key (.ok resp) stdinLine signerOf payNet).exitCode = 3 := by
  simp [runMain, runAfterProbe, mkProbeRes, h]

/-- C1 — witness: a concrete 200 response with no credential configured. -/
theorem C1_free_route_witness :
    ({ statusCode := 200, headers := fun _ => "", body := "hello" } : HttpResponse).statusCode
        = 200 ∧
      (runMain ⟨false, false, false, false, false, false, false, ""⟩ ""
        (.ok { statusCode := 200, headers := fun _ => "", body := "hello" })
        none (fun _ => .error "unused") (.err "unused")).status = "free" ∧
      (runMain ⟨false, false, false, false, false, false, false, ""⟩ ""
        (.ok { statusCode := 200, headers := fun _ => "", body := "hello" })
        none (fun _ => .error "unused") (.err "unused")).exitCode = 3 := by
  refine ⟨rfl, ?_⟩
  exact C1_free_route ⟨false, false, false, false, false, false, false, ""⟩ ""
    { statusCode := 200, headers := fun _ => "", body := "hello" }
    none (fun _ => .error "unused") (.err "unused") rfl

/-- C6: for every 402 probe response with `--skip-verify` configured, the run
stops with final status `"payment_required"` and exit code 0, and neither
signer construction nor the payment phase is ever invoked. -/
theorem C6_skip_verify (fl : Flags) (key : String) (resp : HttpResponse)
    (stdinLine : Option String) (signerOf : String → Except String String)
    (payNet : NetResult) (h402 : resp.statusCode = 402) (hskip : fl.skipVerify = true) :
    (runMain fl key (.ok resp) stdinLine signerOf payNet).status = "payment_required" ∧
      (runMain fl key (.ok resp) stdinLine signerOf payNet).exitCode = 0 ∧
      (runMain fl key (.ok resp) stdinLine signerOf payNet).signerInvoked = false ∧
      (runMain fl key (.ok resp) stdinLine signerOf payNet).paymentAttempted = false := by
  simp [runMain, runAfterProbe, mkProbeRes, h402, hskip]

/-- C6 — witness: a concrete 402 response with skip-verify set. -/
theorem C6_skip_verify_witness :
    ({ statusCode := 402, headers := fun _ => "", body := "" } : HttpResponse).statusCode
        = 402 ∧
      (⟨false, true, false, false, false, false, false, ""⟩ : Flags).skipVerify = true ∧
      (runMain ⟨false, true, false, false, false, false, false, ""⟩ "0xkey"
        (.ok { statusCode := 402, headers := fun _ => "", body := "" })
        none (fun _ => .ok "0xaddr") (.err "unused")).status = "payment_required" ∧
      (runMain ⟨false, true, false, false, false, false, false, ""⟩ "0xkey"
        (.ok { statusCode := 402, headers := fun _ => "", body := "" })
        none (fun _ => .ok "0xaddr") (.err "unused")).signerInvoked = false := by
  refine ⟨rfl, rfl, ?_⟩
  have h := C6_skip_verify ⟨false, true, false, false, false, false, false, ""⟩ "0xkey"
    { statusCode := 402, headers := fun _ => "", body := "" }
    none (fun _ => .ok "0xaddr") (.err "unused") rfl rfl
  exact ⟨h.1, h.2.2.1⟩

/-- C5 — counterexample.  With `--dry-run --json` (and no `--yes`), a 402
probe and an empty credential, the run exits 0 with status
`"payment_required"` and no error: the dry-run gate returns before the
credential check, so the claim's unconditional "config error, exit code 1"
is false. -/
theorem C5_counterexample :
    (runMain ⟨false, false, false, true, true, false, false, ""⟩ ""
        (.ok { statusCode := 402, headers := fun _ => "", body := "" })
        none (fun _ => .error "unused") (.err "unused")).exitCode = 0 ∧
      (runMain ⟨false, false, false, true, true, false, false, ""⟩ ""
        (.ok { statusCode := 402, headers := fun _ => "", body := "" })
        none (fun _ => .error "unused") (.err "unused")).status = "payment_required" ∧
      (runMain ⟨false, false, false, true, true, false, false, ""⟩ ""
        (.ok { statusCode := 402, headers := fun _ => "", body := "" })
        none (fun _ => .error "unused") (.err "unused")).errorMsg = none := by
  refine ⟨rfl, rfl, rfl⟩

/-- C5 (amended): for every run where the probe returns 402, skip-verify is
not set, the dry-run confirmation gate is not in effect (dry-run unset or
auto-confirm set), and `EVM_PRIVATE_KEY` is empty, the run fails as a config
error with exit code 1 before any signing attempt (no signer construction,
no payment request). -/
theorem C5_missing_credential (fl : Flags) (key : String) (resp : HttpResponse)
    (stdinLine : Option String) (signerOf : String → Except String String)
    (payNet : NetResult) (h402 : resp.statusCode = 402)
    (hskip : fl.skipVerify = false) (hgate : (fl.dryRun && !fl.autoYes) = false)
    (hkey : key = "") :
    (runMain fl key (.ok resp) stdinLine signerOf payNet).status = "error" ∧
      (runMain fl key (.ok resp) stdinLine signerOf payNet).exitCode = 1 ∧
      (runMain fl key (.ok resp) stdinLine signerOf payNet).errorMsg
        = some "EVM_PRIVATE_KEY is required for Step 2 (payment)" ∧
      (runMain fl key (.ok resp) stdinLine signerOf payNet).signerInvoked = false ∧
      (runMain fl key (.ok resp) stdinLine signerOf payNet).paymentAttempted = false := by
  simp [runMain, runAfterProbe, runStep2, mkProbeRes, h402, hskip, hgate, hkey]

/-- C5 — witness: concrete 402 response, default flags, empty credential. -/
theorem C5_missing_credential_witness :
    ({ statusCode := 402, headers := fun _ => "", body := "" } : HttpResponse).statusCode
        = 402 ∧
      (runMain ⟨false, false, false, false, false, false, false, ""⟩ ""
        (.ok { statusCode := 402, headers := fun _ => "", body := "" })
        none (fun _ => .error "unused") (.err "unused")).exitCode = 1 ∧
      (runMain ⟨false, false, false, false, false, false, false, ""⟩ ""
        (.ok { statusCode := 402, headers := fun _ => "", body := "" })
        none (fun _ => .error "unused") (.err "unused")).signerInvoked = false := by
  refine ⟨rfl, ?_⟩
  have h := C5_missing_credential ⟨false, false, false, false, false, false, false, ""⟩ ""
    { statusCode := 402, headers := fun _ => "", body := "" }
    none (fun _ => .error "unused") (.err "unused") rfl rfl rfl rfl
  exact ⟨h.2.1, h.2.2.2.1⟩

/-- The same response with the payment-requirements header removed. -/
def erasePayReqHeader (resp : HttpResponse) : HttpResponse :=
  { resp with headers := fun k => if k = "PAYMENT-REQUIRED" then "" else resp.headers k }

/-- C7: for every 402 probe response (header values are CR/LF-free, as HTTP
guarantees): payment-required is true; a present, decodable
payment-requirements header yields a non-empty decoded requirements
document; an undecodable (or absent) header value leaves the requirements
absent and the whole run proceeds exactly as if the header were absent —
decoding failure never fails the run. -/
theorem C7_probe_requirements (resp : HttpResponse) (h402 : resp.statusCode = 402)
    (hcr : noCRLF (resp.headers "PAYMENT-REQUIRED") = true) :
    (mkProbeRes resp).paymentRequired = true ∧
      (∀ bs, resp.headers "PAYMENT-REQUIRED" ≠ "" →
        base64Decode (resp.headers "PAYMENT-REQUIRED") = some bs →
        (mkProbeRes resp).paymentRequirements = some bs ∧ bs ≠ []) ∧
      (bestEffortB64 (resp.headers "PAYMENT-REQUIRED") = none →
        (mkProbeRes resp).paymentRequirements = none ∧
        ∀ fl key stdinLine signerOf payNet,
          runMain fl key (.ok resp) stdinLine signerOf payNet
            = runMain fl key (.ok (erasePayReqHeader resp)) stdinLine signerOf payNet) := by
  refine ⟨by simp [mkProbeRes, h402], ?_, ?_⟩
  · intro bs hne hdec
    refine ⟨by simp [mkProbeRes, bestEffortB64, hne, hdec], ?_⟩
    exact base64Decode_ne_nil _ hcr hne bs hdec
  · intro h0
    refine ⟨by simp [mkProbeRes, h0], ?_⟩
    intro fl key stdinLine signerOf payNet
    have hb : bestEffortB64 "" = none := rfl
    have hsame : mkProbeRes (erasePayReqHeader resp) = mkProbeRes resp := by
      unfold mkProbeRes erasePayReqHeader
      simp [hb, h0]
    simp [runMain, hsame]

/-- A 402 response whose payment-requirements header is valid base64 for the
JSON bytes of `\x7b"x":1\x7d`. -/
def resp402goodHeader : HttpResponse :=
  { statusCode := 402
    headers := fun k => if k = "PAYMENT-REQUIRED" then "eyJ4IjoxfQ==" else ""
    body := "" }

/-- A 402 response whose payment-requirements header is not base64. -/
def resp402badHeader : HttpResponse :=
  { statusCode := 402
    headers := fun k => if k = "PAYMENT-REQUIRED" then "%%%%" else ""
    body := "" }

/-- C7 — witness: concrete 402 responses, one with a decodable header, one
with a corrupt header value. -/
theorem C7_probe_requirements_witness :
    (mkProbeRes resp402goodHeader).paymentRequired = true ∧
      (mkProbeRes resp402goodHeader).paymentRequirements
        = some [123, 34, 120, 34, 58, 49, 125] ∧
      (mkProbeRes resp402badHeader).paymentRequirements = none := by
  have h1 := C7_probe_requirements resp402goodHeader rfl (by decide)
  have h2 := C7_probe_requirements resp402badHeader rfl (by decide)
  refine ⟨h1.1, ?_, ?_⟩
  · exact (h1.2.1 [123, 34, 120, 34, 58, 49, 125] (by decide) (by decide)).1
  · exact (h2.2.2 (by decide)).1

/-- C10: whenever the payment-requirements header is present and decodes,
the decoded document is attached to the probe outcome regardless of the HTTP
status code (payment-required itself is exactly "status = 402"), and the
probe outcome is part of the emitted run result on every post-probe path. -/
theorem C10_requirements_any_status (resp : HttpResponse) (bs : List Nat)
    (hne : resp.headers "PAYMENT-REQUIRED" ≠ "")
    (hdec : base64Decode (resp.headers "PAYMENT-REQUIRED") = some bs) :
    (mkProbeRes resp).paymentRequirements = some bs ∧
      (mkProbeRes resp).paymentRequired = (resp.statusCode == 402) ∧
      ∀ fl key stdinLine signerOf payNet,
        (runMain fl key (.ok resp) stdinLine signerOf payNet).probe
          = some (mkProbeRes resp) := by
  refine ⟨by simp [mkProbeRes, bestEffortB64, hne, hdec], rfl, ?_⟩
  intro fl key stdinLine signerOf payNet
  exact runAfterProbe_probe fl key stdinLine signerOf payNet (mkProbeRes resp)

/-- A 200 (free) response that still carries a valid base64
payment-requirements header, for the JSON bytes of `\x7b"a":2\x7d`. -/
def resp200withHeader : HttpResponse :=
  { statusCode := 200
    headers := fun k => if k = "PAYMENT-REQUIRED" then "eyJhIjoyfQ==" else ""
    body := "" }

/-- C10 — witness: a 200 (non-402) response carrying a decodable
payment-requirements header still has the decoded document in the emitted
probe result, with payment-required false. -/
theorem C10_requirements_any_status_witness :
    (mkProbeRes resp200withHeader).paymentRequirements
        = some [123, 34, 97, 34, 58, 50, 125] ∧
      (mkProbeRes resp200withHeader).paymentRequired = false ∧
      (runMain ⟨false, false, false, false, false, false, false, ""⟩ ""
        (.ok resp200withHeader)
        none (fun _ => .error "unused") (.err "unused")).probe
        = some (mkProbeRes resp200withHeader) := by
  have h := C10_requirements_any_status resp200withHeader
    [123, 34, 97, 34, 58, 50, 125] (by decide) (by decide)
  refine ⟨h.1, ?_, ?_⟩
  · rw [h.2.1]
    decide
  · exact h.2.2 ⟨false, false, false, false, false, false, false, ""⟩ ""
      none (fun _ => .error "unused") (.err "unused")

/-! ## Embedding of the balance subsystem (wallet file)

`queryUSDCBalance` builds fixed call data (selector + padded address) and
posts one JSON-RPC request; the transport and JSON envelope are abstracted
into an `RpcReply`: transport error, unparsable body, RPC-level error, or a
hex result string.  The post-transport processing (lines 166–194) is
embedded below.  `atomicToHuman` is invoked with the hard-coded 6.
-/

inductive RpcReply where
  | transportError (msg : String)
  | badJSON
  | rpcError (msg : String)
  | result (s : String)

/-- `strings.TrimPrefix(s, "0x")`: remove a leading `"0x"` if present. -/
def strip0x (s : String) : String :=
  match s.toList with
  | '0' :: 'x' :: rest => String.mk rest
  | _ => s

/-- `padHexLeft`: prepend `"0"` when the length is odd. -/
def padHexLeft (s : String) : String :=
  if s.length % 2 ≠ 0 then "0" ++ s else s

/-- Hex digit value (Go `encoding/hex` accepts both cases). -/
def hexVal (c : Char) : Option Nat :=
  if '0' ≤ c ∧ c ≤ '9' then some (c.toNat - 48)
  else if 'a' ≤ c ∧ c ≤ 'f' then some (c.toNat - 97 + 10)
  else if 'A' ≤ c ∧ c ≤ 'F' then some (c.toNat - 65 + 10)
  else none

/-- `hex.DecodeString` on a character list: two digits per byte, error on a
non-hex character or odd length. -/
def hexDecodeL : List Char → Option (List Nat)
  | [] => some []
  | c1 :: c2 :: rest =>
    match hexVal c1, hexVal c2, hexDecodeL rest with
    | some v1, some v2, some tl => some ((v1 * 16 + v2) :: tl)
    | _, _, _ => none
  | _ => none

def hexDecode (s : String) : Option (List Nat) :=
  hexDecodeL s.toList

/-- `big.Int.SetBytes`: big-endian byte interpretation. -/
def bytesToNat (l : List Nat) : Nat :=
  l.foldl (fun a b => a * 256 + b) 0

/-- Result processing of `queryUSDCBalance` (wallet file lines 160–194),
given the outcome of the RPC transport.  Returns
`(human balance, raw atomic value)` or an error; the outer `none` models a
Go panic. -/
def queryUSDCBalance (reply : RpcReply) : Option (Except String (String × String)) :=
  match reply with
  | .transportError m => some (.error ("rpc call failed: " ++ m))
  | .badJSON => some (.error "invalid rpc response")
  | .rpcError m => some (.error ("rpc error: " ++ m))
  | .result s =>
    if strip0x s = "" ∨ strip0x s = "0" then some (.ok ("0", "0"))
    else
      match hexDecode (padHexLeft (strip0x s)) with
      | none => some (.error ("invalid hex: " ++ strip0x s))
      | some bytes =>
        (atomicToHuman (bytesToNat bytes) 6).map
          (fun h => .ok (h, String.mk (natDigits (bytesToNat bytes))))

/-- The balance query never panics: the hard-coded 6 decimals are safe. -/
theorem queryUSDCBalance_total (reply : RpcReply) :
    ∃ x, queryUSDCBalance reply = some x := by
  cases reply with
  | transportError m => exact ⟨_, rfl⟩
  | badJSON => exact ⟨_, rfl⟩
  | rpcError m => exact ⟨_, rfl⟩
  | result s =>
    unfold queryUSDCBalance
    dsimp only
    by_cases h0 : strip0x s = "" ∨ strip0x s = "0"
    · rw [if_pos h0]
      exact ⟨_, rfl⟩
    · rw [if_neg h0]
      rcases hdec : hexDecode (padHexLeft (strip0x s)) with _ | bytes
      · exact ⟨_, rfl⟩
      · dsimp only
        rw [toHuman_eq (bytesToNat bytes) 6 (by decide)]
        exact ⟨_, rfl⟩

/-! ### Network registry and wallet command (wallet file lines 19–136) -/

structure networkInfo where
  chainID : String
  rpcURL : String
  usdcContract : String
  decimals : Nat
  name : String
deriving DecidableEq

/-- The fixed network registry.  Go stores it in a map whose iteration
order is unspecified; the spec declares entry order irrelevant, so it is
embedded as an association list. -/
def networks : List (String × networkInfo) :=
  [("base",
    { chainID := "eip155:8453"
      rpcURL := "https://mainnet.base.org"
      usdcContract := "0x833589fCD6eDb6E08f4c7C32D4f71b54bdA02913"
      decimals := 6
      name := "Base" }),
   ("base-sepolia",
    { chainID := "eip155:84532"
      rpcURL := "https://sepolia.base.org"
      usdcContract := "0x036CbD53842c5426634e7929541eC2318f3dCF7e"
      decimals := 6
      name := "Base Sepolia" }),
   ("avalanche",
    { chainID := "eip155:43114"
      rpcURL := "https://api.avax.network/ext/bc/C/rpc"
      usdcContract := "0xB97EF9Ef8734C71904D8002F8b6Bc66Dd9c48a6E"
      decimals := 6
      name := "Avalanche" }),
   ("avalanche-fuji",
    { chainID := "eip155:43113"
      rpcURL := "https://api.avax-test.network/ext/bc/C/rpc"
      usdcContract := "0x5425890298aed601595a70AB815c96711a31Bc65"
      decimals := 6
      name := "Avalanche Fuji" })]

structure balanceEntry where
  network : String
  chainId : String
  asset : String
  balance : String
  decimals : Nat
  raw : String
deriving DecidableEq

/-- Entry recorded when a network's query fails: the error text is stored in
the raw field and the balance field holds the literal `"error"`
(`Decimals` is left at its zero value). -/
def mkErrEntry (name : String) (info : networkInfo) (e : String) : balanceEntry :=
  { network := name, chainId := info.chainID, asset := "USDC",
    balance := "error", decimals := 0, raw := e }

/-- Entry recorded for a successful query. -/
def mkOkEntry (name : String) (info : networkInfo) (human raw : String) : balanceEntry :=
  { network := name, chainId := info.chainID, asset := "USDC",
    balance := human, decimals := info.decimals, raw := raw }

def entryOf (name : String) (info : networkInfo) :
    Except String (String × String) → balanceEntry
  | .error e => mkErrEntry name info e
  | .ok (h, r) => mkOkEntry name info h r

/-- One loop iteration of `runWallet`: query a network, build its entry. -/
def mkBalanceEntry (name : String) (info : networkInfo) (reply : RpcReply) :
    Option balanceEntry :=
  (queryUSDCBalance reply).map (entryOf name info)

/-- The `for name, info := range netsToQuery` loop: every network is
queried, each failure is recorded inline, no iteration is skipped. -/
def collectEntries (oracle : String → RpcReply) :
    List (String × networkInfo) → Option (List balanceEntry)
  | [] => some []
  | p :: rest =>
    match mkBalanceEntry p.1 p.2 (oracle p.1), collectEntries oracle rest with
    | some e, some es => some (e :: es)
    | _, _ => none

def availableNetworks (nets : List (String × networkInfo)) : String :=
  String.intercalate ", " (nets.map (fun p => p.1))

/-- Observable outcome of `runWallet`.  `errorField` is the `error` field of
the emitted JSON document; `stderrMsgs` the diagnostic-stream lines;
`rpcCalls` the networks actually queried over RPC; `exitCode` the process
exit code after `runWallet` returns (the function itself never calls
`os.Exit`, so the process exits 0). -/
structure WalletRun where
  address : String
  errorField : Option String
  stderrMsgs : List String
  balances : List balanceEntry
  rpcCalls : List String
  exitCode : Nat
deriving DecidableEq

/-- Embedding of `runWallet` (wallet file lines 76–136).  `nets` is the
registry (the real one is `networks`), `oracle` maps a network name to its
RPC outcome.  The outer `none` models a Go panic. -/
def runWallet (address network : String) (jsonOutput : Bool)
    (nets : List (String × networkInfo)) (oracle : String → RpcReply) :
    Option WalletRun :=
  match (if network = "" then some nets
         else (nets.find? (fun p => p.1 == network)).map (fun p => [p])) with
  | none =>
    if jsonOutput then
      some { address := address,
             errorField := some ("unknown network: " ++ network),
             stderrMsgs := [], balances := [], rpcCalls := [], exitCode := 0 }
    else
      some { address := address, errorField := none,
             stderrMsgs := ["Unknown network: " ++ network,
                            "Available: " ++ availableNetworks nets],
             balances := [], rpcCalls := [], exitCode := 0 }
  | some toQuery =>
    (collectEntries oracle toQuery).map
      (fun entries =>
        { address := address, errorField := none, stderrMsgs := [],
          balances := entries,
          rpcCalls := toQuery.map (fun p => p.1), exitCode := 0 })

/-! ### C4 — unknown network -/

/-- C4 — counterexample.  Querying the real registry for the unknown network
`"solana"` in structured mode reports the error in the document's error
field and issues no RPC call, but the process exit code is 0, not non-zero:
`runWallet` simply returns and `main` exits normally. -/
theorem C4_counterexample :
    runWallet "0xwallet" "solana" true networks (fun _ => .result "0x0")
      = some { address := "0xwallet"
               errorField := some "unknown network: solana"
               stderrMsgs := []
               balances := []
               rpcCalls := []
               exitCode := 0 } := by
  rfl

/-- C4 (amended): for every wallet query naming a network absent from the
registry, the error is reported before any RPC call is issued (error field
of the emitted document in structured mode, diagnostic stream in text mode),
but the process exits with code 0 — not non-zero. -/
theorem C4_unknown_network (addr network : String) (jsonOutput : Bool)
    (nets : List (String × networkInfo)) (oracle : String → RpcReply)
    (hne : network ≠ "") (hfind : nets.find? (fun p => p.1 == network) = none) :
    runWallet addr network jsonOutput nets oracle
      = some { address := addr
               errorField := if jsonOutput then
                 some ("unknown network: " ++ network) else none
               stderrMsgs := if jsonOutput then [] else
                 ["Unknown network: " ++ network,
                  "Available: " ++ availableNetworks nets]
               balances := []
               rpcCalls := []
               exitCode := 0 } := by
  unfold runWallet
  rw [if_neg hne, hfind]
  cases jsonOutput <;> simp

/-- C4 — witness: the unknown network `"solana"` against the real registry
in text mode. -/
theorem C4_unknown_network_witness :
    runWallet "0xwallet" "solana" false networks (fun _ => .result "0x0")
      = some { address := "0xwallet"
               errorField := none
               stderrMsgs := ["Unknown network: solana",
                              "Available: base, base-sepolia, avalanche, avalanche-fuji"]
               balances := []
               rpcCalls := []
               exitCode := 0 } := by
  rw [C4_unknown_network "0xwallet" "solana" false networks
    (fun _ => .result "0x0") (by decide) (by rfl)]
  rfl

/-! ### C8 — per-network error isolation -/

theorem collectEntries_total (oracle : String → RpcReply) :
    ∀ nets : List (String × networkInfo),
      ∃ es, collectEntries oracle nets = some es ∧ es.length = nets.length ∧
        ∀ p ∈ nets, ∀ x, queryUSDCBalance (oracle p.1) = some x →
          entryOf p.1 p.2 x ∈ es := by
  intro nets
  induction nets with
  | nil => exact ⟨[], rfl, rfl, by simp⟩
  | cons p rest ih =>
    obtain ⟨es, hes, hlen, hmem⟩ := ih
    obtain ⟨x, hx⟩ := queryUSDCBalance_total (oracle p.1)
    refine ⟨entryOf p.1 p.2 x :: es, ?_, by simp [hlen], ?_⟩
    · unfold collectEntries mkBalanceEntry
      rw [hx, hes]
      rfl
    · intro q hq y hy
      rcases List.mem_cons.mp hq with hq1 | hq1
      · subst hq1
        rw [hx] at hy
        have : x = y := by injection hy
        subst this
        exact List.mem_cons_self _ _
      · exact List.mem_cons_of_mem _ (hmem q hq1 y hy)

/-- C8: in a wallet query over all configured networks, every network is
queried exactly once (one entry per network, RPC issued for each), a
per-network failure yields an entry carrying the error text in place of a
balance, and the remaining networks still produce their (possibly
successful) entries — a failure never aborts the aggregate. -/
theorem C8_network_isolation (addr : String) (jsonOutput : Bool)
    (nets : List (String × networkInfo)) (oracle : String → RpcReply) :
    ∃ r, runWallet addr "" jsonOutput nets oracle = some r ∧
      r.rpcCalls = nets.map (fun p => p.1) ∧
      r.balances.length = nets.length ∧
      (∀ p ∈ nets, ∀ e, queryUSDCBalance (oracle p.1) = some (.error e) →
        mkErrEntry p.1 p.2 e ∈ r.balances) ∧
      (∀ p ∈ nets, ∀ h raw, queryUSDCBalance (oracle p.1) = some (.ok (h, raw)) →
        mkOkEntry p.1 p.2 h raw ∈ r.balances) := by
  obtain ⟨es, hes, hlen, hmem⟩ := collectEntries_total oracle nets
  refine ⟨{ address := addr, errorField := none, stderrMsgs := [],
            balances := es, rpcCalls := nets.map (fun p => p.1), exitCode := 0 },
    ?_, rfl, hlen, ?_, ?_⟩
  · unfold runWallet
    rw [if_pos rfl]
    dsimp only
    rw [hes]
    rfl
  · intro p hp e he
    exact hmem p hp (.error e) he
  · intro p hp h raw hok
    exact hmem p hp (.ok (h, raw)) hok

/-- Two-network demo registry for the witness. -/
def demoNets : List (String × networkInfo) :=
  [("net-a",
    { chainID := "eip155:1"
      rpcURL := "https://a.example"
      usdcContract := "0xA"
      decimals := 6
      name := "Net A" }),
   ("net-b",
    { chainID := "eip155:2"
      rpcURL := "https://b.example"
      usdcContract := "0xB"
      decimals := 6
      name := "Net B" })]

/-- Demo oracle: the first network's RPC errors, the second succeeds with
ten atomic units. -/
def demoOracle : String → RpcReply :=
  fun n => if n = "net-a" then .rpcError "boom" else .result "0x0a"

/-- C8 — witness: the isolation theorem instantiated on the demo registry
where one network fails and the other succeeds. -/
theorem C8_network_isolation_witness :
    ∃ r, runWallet "0xwallet" "" true demoNets demoOracle = some r ∧
      r.rpcCalls = demoNets.map (fun p => p.1) ∧
      r.balances.length = demoNets.length ∧
      (∀ p ∈ demoNets, ∀ e, queryUSDCBalance (demoOracle p.1) = some (.error e) →
        mkErrEntry p.1 p.2 e ∈ r.balances) ∧
      (∀ p ∈ demoNets, ∀ h raw, queryUSDCBalance (demoOracle p.1) = some (.ok (h, raw)) →
        mkOkEntry p.1 p.2 h raw ∈ r.balances) :=
  C8_network_isolation "0xwallet" true demoNets demoOracle

/-! ### C9 — empty or all-zero hex result -/

theorem bytesToNat_zeros (bs : List Nat) (h : ∀ b ∈ bs, b = 0) :
    bytesToNat bs = 0 := by
  induction bs with
  | nil => rfl
  | cons b t ih =>
    have hb : b = 0 := h b (by simp)
    subst hb
    unfold bytesToNat at ih ⊢
    simpa using ih (fun b hb => h b (by simp [hb]))

theorem hexDecodeL_zeros (n : Nat) :
    ∀ l : List Char, l.length ≤ n → (∀ c ∈ l, c = '0') → l.length % 2 = 0 →
      ∃ bs, hexDecodeL l = some bs ∧ ∀ b ∈ bs, b = 0 := by
  induction n with
  | zero =>
    intro l hl _ _
    have : l = [] := List.eq_nil_of_length_eq_zero (by omega)
    subst this
    exact ⟨[], rfl, by simp⟩
  | succ n ih =>
    intro l hl hz hev
    match l with
    | [] => exact ⟨[], rfl, by simp⟩
    | [c] => simp at hev
    | c1 :: c2 :: rest =>
      have h1 : c1 = '0' := hz c1 (by simp)
      have h2 : c2 = '0' := hz c2 (by simp)
      subst h1 h2
      have hrl : rest.length ≤ n := by
        simp only [List.length_cons] at hl
        omega
      have hre : rest.length % 2 = 0 := by
        simp only [List.length_cons] at hev
        omega
      obtain ⟨bs, hbs, hz0⟩ := ih rest hrl (fun c hc => hz c (by simp [hc])) hre
      refine ⟨0 :: bs, ?_, ?_⟩
      · unfold hexDecodeL
        rw [hbs]
        rfl
      · intro b hb
        rcases List.mem_cons.mp hb with hb1 | hb1
        · exact hb1
        · exact hz0 b hb1

theorem padHexLeft_toList (t : String) :
    (padHexLeft t).toList
      = if t.length % 2 ≠ 0 then '0' :: t.toList else t.toList := by
  unfold padHexLeft
  by_cases h : t.length % 2 ≠ 0
  · rw [if_pos h, if_pos h]
    cases t with
    | mk data => rfl
  · rw [if_neg h, if_neg h]

theorem string_length_toList (t : String) : t.toList.length = t.length := rfl

/-- C9: for every RPC result whose hex payload (after stripping `0x`) is
empty or consists only of zeros, the balance query succeeds with raw value
`"0"` and no error; and the human rendering of the atomic amount `0` at the
6 decimals in use is `"0.000000"`. -/
theorem C9_zero_result (s : String) (hz : ∀ c ∈ (strip0x s).toList, c = '0') :
    (∃ h, queryUSDCBalance (.result s) = some (.ok (h, "0"))) ∧
      atomicToHuman 0 6 = some "0.000000" := by
  refine ⟨?_, by decide⟩
  unfold queryUSDCBalance
  dsimp only
  by_cases h0 : strip0x s = "" ∨ strip0x s = "0"
  · rw [if_pos h0]
    exact ⟨"0", rfl⟩
  · rw [if_neg h0]
    have hpadz : ∀ c ∈ (padHexLeft (strip0x s)).toList, c = '0' := by
      intro c hc
      rw [padHexLeft_toList] at hc
      by_cases hpar : (strip0x s).length % 2 ≠ 0
      · rw [if_pos hpar] at hc
        rcases List.mem_cons.mp hc with hc1 | hc1
        · exact hc1
        · exact hz c hc1
      · rw [if_neg hpar] at hc
        exact hz c hc
    have hpade : (padHexLeft (strip0x s)).toList.length % 2 = 0 := by
      rw [padHexLeft_toList]
      by_cases hpar : (strip0x s).length % 2 ≠ 0
      · rw [if_pos hpar]
        simp only [List.length_cons, string_length_toList]
        omega
      · rw [if_neg hpar]
        rw [string_length_toList]
        omega
    obtain ⟨bs, hbs, hz0⟩ :=
      hexDecodeL_zeros (padHexLeft (strip0x s)).toList.length _ le_rfl hpadz hpade
    have hdec : hexDecode (padHexLeft (strip0x s)) = some bs := hbs
    rw [hdec]
    dsimp only
    rw [bytesToNat_zeros bs hz0]
    rw [show atomicToHuman 0 6 = some "0.000000" from by decide]
    exact ⟨"0.000000", rfl⟩

/-- C9 — witness: the all-zero payload `"0x0000"` (which does not hit the
short-circuit branch) and the empty payload both come out as exactly
zero. -/
theorem C9_zero_result_witness :
    (∀ c ∈ (strip0x "0x0000").toList, c = '0') ∧
      (∃ h, queryUSDCBalance (.result "0x0000") = some (.ok (h, "0"))) ∧
      atomicToHuman 0 6 = some "0.000000" := by
  refine ⟨by decide, ?_, ?_⟩
  · exact (C9_zero_result "0x0000" (by decide)).1
  · exact (C9_zero_result "0x0000" (by decide)).2

end X402
